import Mathlib

/-!
Verification of the document-synchronization and task-orchestration engine
of the vector-knowledge-base server.

The Python services are shallowly embedded as pure Lean functions:
the relational store is a list of rows, the vector index a list of chunk
ids, the blob store and the embedding pipeline are abstracted by boolean
success flags, and the cryptographic digest together with the metadata
serializer are abstract function parameters (the code uses sha256 hex
digests of strings; chunk metadata is represented by its serialized
string form, as the code always digests the serialized text).
-/

/-- A candidate text chunk produced by the splitter: its page content and
its metadata, represented by the serialized string that the code feeds to
the digest. Mirrors `TextChunk` in `app/services/document_processor.py`. -/
structure TextChunk where
  content : String
  metaStr : String
deriving DecidableEq, Repr

/-- A row of the `document_chunks` table
(`DocumentChunk` in `app/models/knowledge.py`): content-derived primary
key `id`, owning knowledge base and document, source file name, and the
content hash used for change detection. -/
structure ChunkRow where
  id : String
  kb_id : Nat
  document_id : Nat
  file_name : String
  hash : String
deriving DecidableEq, Repr

/-- Embedding of `generate_chunk_id` from
`app/services/document_processor.py` (lines 53-79):
`chunk_hash = sha256(chunk_content + str(chunk_metadata)).hexdigest()` and
`chunk_id = sha256(f"kb_id:file_name:chunk_hash").hexdigest()`, with the
digest abstracted as a function parameter. Returns `(chunk_hash, chunk_id)`. -/
def generate_chunk_id (digest : String → String) (kb_id : Nat)
    (file_name : String) (chunk_content : String) (chunk_metadata : String) :
    String × String :=
  let chunk_hash := digest (chunk_content ++ chunk_metadata)
  let chunk_id :=
    digest (toString kb_id ++ ":" ++ file_name ++ ":" ++ chunk_hash)
  (chunk_hash, chunk_id)

/-- The content hash the code computes for a candidate chunk:
the first component of `generate_chunk_id`. -/
def candidateHash (digest : String → String) (c : TextChunk) : String :=
  digest (c.content ++ c.metaStr)

/-- Modelled from the spec: `ChunkRecord.list_chunks` — the file
`app/services/chunk_record.py` is not under `src/` (only its integration
test is). Spec 4.3 step 3: load the hashes currently recorded for the
file; the test `test_add_and_list_chunks` shows it returns the set of
`hash` values of the knowledge base's rows for the given file name. -/
def list_chunks (kb_id : Nat) (rows : List ChunkRow) (file_name : String) :
    List String :=
  (rows.filter
    (fun r => decide (r.kb_id = kb_id ∧ r.file_name = file_name))).map
    ChunkRow.hash

/-- Modelled from the spec: `ChunkRecord.add_chunks` — the file
`app/services/chunk_record.py` is not under `src/`. Spec 4.3 step 6
persists the addition batch; the test `test_add_and_list_chunks` shows
the rows are inserted into the `document_chunks` table. -/
def add_chunks (rows newRows : List ChunkRow) : List ChunkRow :=
  rows ++ newRows

/-- Modelled from the spec: `ChunkRecord.get_deleted_chunks` — the file
`app/services/chunk_record.py` is not under `src/`. Spec 4.3 step 5:
`deletions = ids of recorded rows whose content hash is not among the
current hashes`; the test `test_get_deleted_chunks` confirms it returns
the ids of the knowledge base's rows for the file whose `hash` is not in
`current_hashes`. -/
def get_deleted_chunks (kb_id : Nat) (rows : List ChunkRow)
    (current_hashes : List String) (file_name : String) : List String :=
  (rows.filter (fun r => decide (r.kb_id = kb_id ∧ r.file_name = file_name ∧
    r.hash ∉ current_hashes))).map ChunkRow.id

/-- Modelled from the spec: `ChunkRecord.delete_chunks` — the file
`app/services/chunk_record.py` is not under `src/`. Spec 4.3 step 6
removes the listed chunk ids from the relational store; the test
`test_delete_chunks` confirms rows with those ids are deleted. -/
def delete_chunks (rows : List ChunkRow) (ids : List String) :
    List ChunkRow :=
  rows.filter (fun r => decide (r.id ∉ ids))

/-- The candidate-preparation loop of `process_document`
(`app/services/document_processor.py` lines 121-160): for each candidate
chunk compute `(chunk_hash, chunk_id)` via `generate_chunk_id`, record
the hash in `current_hashes`, skip the candidate when its hash is already
recorded in `existing_hashes`, and otherwise build the new chunk row.
Returns `(current_hashes, new_chunks)`. -/
def prepareChunks (digest : String → String) (kb_id : Nat)
    (file_name : String) (document_id : Nat)
    (existing_hashes : List String) :
    List TextChunk → List String × List ChunkRow
  | [] => ([], [])
  | c :: cs =>
    let hid := generate_chunk_id digest kb_id file_name c.content c.metaStr
    let rest :=
      prepareChunks digest kb_id file_name document_id existing_hashes cs
    if hid.1 ∈ existing_hashes then
      (hid.1 :: rest.1, rest.2)
    else
      (hid.1 :: rest.1,
        ChunkRow.mk hid.2 kb_id document_id file_name hid.1 :: rest.2)

/-- The two stores a synchronization pass mutates: the relational
`document_chunks` rows and the set of chunk ids present in the vector
index (the vector index is keyed by the same chunk id as the ledger). -/
structure SyncState where
  rows : List ChunkRow
  vectorIds : List String
deriving DecidableEq, Repr

/-- Outcome of one synchronization pass: resulting store state, the batch
of added chunk rows, the list of deleted chunk ids, and whether the pass
completed without raising (`ok = false` models the vector-store
`add_documents` call raising, which `process_document` re-raises). -/
structure SyncRun where
  state : SyncState
  additions : List ChunkRow
  deletions : List String
  ok : Bool
deriving DecidableEq, Repr

/-- Embedding of `process_document`
(`app/services/document_processor.py` lines 82-181): load the existing
hashes for the file, prepare the new chunks, and if there are any, first
insert them into the relational store (`chunk_manager.add_chunks`) and
then call the vector store (`vector_store.add_documents`); when the
vector call raises (`vectorAddOk = false`) the exception propagates with
the relational insert already performed and the deletion phase never
runs. Otherwise compute the deleted chunks and remove them from the
relational store and the vector index. -/
def process_document (digest : String → String) (kb_id : Nat)
    (file_name : String) (document_id : Nat) (candidates : List TextChunk)
    (vectorAddOk : Bool) (st : SyncState) : SyncRun :=
  let existing_hashes := list_chunks kb_id st.rows file_name
  let pc := prepareChunks digest kb_id file_name document_id
    existing_hashes candidates
  let current_hashes := pc.1
  let new_chunks := pc.2
  let rows1 := if new_chunks.isEmpty then st.rows
    else add_chunks st.rows new_chunks
  if new_chunks.isEmpty ∨ vectorAddOk then
    let vec1 := if new_chunks.isEmpty then st.vectorIds
      else st.vectorIds ++ new_chunks.map ChunkRow.id
    let chunks_to_delete :=
      get_deleted_chunks kb_id rows1 current_hashes file_name
    let rows2 := if chunks_to_delete.isEmpty then rows1
      else delete_chunks rows1 chunks_to_delete
    let vec2 := if chunks_to_delete.isEmpty then vec1
      else vec1.filter (fun i => decide (i ∉ chunks_to_delete))
    SyncRun.mk (SyncState.mk rows2 vec2) new_chunks chunks_to_delete true
  else
    SyncRun.mk (SyncState.mk rows1 st.vectorIds) new_chunks [] false

/-- A row of the `processing_tasks` table, restricted to the fields the
status-update operation touches (`ProcessingTask` in
`app/models/knowledge.py`). -/
structure ProcessingTaskRow where
  id : Nat
  status : String
  error_message : Option String
  celery_task_id : Option String
deriving DecidableEq, Repr

/-- Python truthiness of an optional string: `None` and the empty string
are falsy. Models the `if error_message:` / `if celery_task_id:` guards
in `ProcessingTaskService.update_status`. -/
def pyTruthy : Option String → Bool
  | none => false
  | some s => decide (s ≠ "")

/-- The field updates `update_status` applies to the found task
(`app/services/processing_task_service.py` lines 61-66): the status is
overwritten unconditionally; `error_message` and `celery_task_id` are
overwritten only when the argument is truthy. -/
def applyUpdate (status : String) (error_message : Option String)
    (celery_task_id : Option String) (t : ProcessingTaskRow) :
    ProcessingTaskRow :=
  ProcessingTaskRow.mk t.id status
    (if pyTruthy error_message then error_message else t.error_message)
    (if pyTruthy celery_task_id then celery_task_id else t.celery_task_id)

/-- Embedding of `ProcessingTaskService.update_status`
(`app/services/processing_task_service.py` lines 50-70): look the task up
by primary key; an unknown id is a no-op returning `none`; otherwise
apply the updates and return the updated table together with the updated
row. The Python signature defaults `status` to `"pending"`; call sites
that omit it are embedded through `attach_celery_handle` below. -/
def update_status (tasks : List ProcessingTaskRow) (task_id : Nat)
    (status : String) (error_message : Option String)
    (celery_task_id : Option String) :
    List ProcessingTaskRow × Option ProcessingTaskRow :=
  match tasks.find? (fun t => decide (t.id = task_id)) with
  | none => (tasks, none)
  | some _ =>
    let tasks1 := tasks.map (fun t =>
      if t.id = task_id then applyUpdate status error_message celery_task_id t
      else t)
    (tasks1, tasks1.find? (fun t => decide (t.id = task_id)))

/-- The call the knowledge-base deletion route makes after enqueuing the
cleanup job (`app/api/v1/knowledge_base/kb_router.py` lines 213-215):
`update_status(task_id=task.id, celery_task_id=celery_task.id)` — the
`status` parameter is omitted, so Python supplies its declared default
`"pending"`, and no error message is passed. -/
def attach_celery_handle (tasks : List ProcessingTaskRow) (task_id : Nat)
    (cid : String) : List ProcessingTaskRow × Option ProcessingTaskRow :=
  update_status tasks task_id "pending" none (some cid)

/-- Trace of one run of the celery cleanup task: the sequence of
`(status, error_message)` writes it performs through
`ProcessingTaskService` (via `mark_processing` / `mark_completed` /
`mark_failed`), the retry delays it schedules, and whether it ended in
the permanent-failure escalation (`MaxRetriesExceededError`). -/
structure CleanupTrace where
  writes : List (String × Option String)
  delays : List Nat
  escalated : Bool
deriving DecidableEq, Repr

/-- The recursion of `cleanup_kb_task` (`app/tasks/kb_cleanup_task.py`):
at retry count `r` the task first writes `processing`
(`mark_processing`); if the unit of work succeeds it writes `completed`
and stops; if it raises with message `e` the task immediately writes
`("failed", e)` (`mark_failed`), computes
`delay = min(300, 20 * 2 ^ (r + 1))` (the code's
`attempt = self.request.retries + 1`), and calls `self.retry`: when
`r < max_retries` a retry is scheduled after `delay`, otherwise celery
raises `MaxRetriesExceededError` and the task escalates. `fuel` bounds
the recursion; the top-level entry supplies enough fuel for every
execution the retry budget allows. -/
def cleanup_kb_go (work : Nat → Option String) (max_retries : Nat) :
    Nat → Nat → CleanupTrace
  | _, 0 => CleanupTrace.mk [] [] false
  | r, fuel + 1 =>
    match work r with
    | none =>
      CleanupTrace.mk [("processing", none), ("completed", none)] [] false
    | some e =>
      let delay := min 300 (20 * 2 ^ (r + 1))
      if r < max_retries then
        let rest := cleanup_kb_go work max_retries (r + 1) fuel
        CleanupTrace.mk
          (("processing", none) :: ("failed", some e) :: rest.writes)
          (delay :: rest.delays) rest.escalated
      else
        CleanupTrace.mk [("processing", none), ("failed", some e)] [] true

/-- One full run of `cleanup_kb_task` with the celery configuration of
`app/tasks/kb_cleanup_task.py` (`max_retries=5`): the initial execution
plus up to five retries. `work r` is the outcome of
`service.cleanup_kb_resources` on the execution with retry count `r`
(`none` = success, `some e` = exception with message `e`). -/
def cleanup_kb_task_run (work : Nat → Option String) : CleanupTrace :=
  cleanup_kb_go work 5 0 6

/-- Result of `KnowledgeBaseService.delete_kb`
(`app/services/kb_service.py`): an `HTTPException` with a status code, or
the success payload with its message and `warnings` list. -/
inductive KbDeleteResult where
  | httpError (code : Nat) : KbDeleteResult
  | success (message : String) (warnings : List String) : KbDeleteResult
deriving DecidableEq, Repr

/-- Embedding of `KnowledgeBaseService.delete_kb`
(`app/services/kb_service.py` lines 19-81): 404 when the knowledge base
row is absent; best-effort MinIO and vector-store cleanup, each failure
appended to `cleanup_errors`; then the relational delete and commit — a
commit failure rolls back and raises 500; otherwise the call succeeds,
with the collected errors returned as `warnings` when non-empty. The
second component reports whether the relational row was deleted. -/
def delete_kb (kb_found minio_ok vector_ok db_ok : Bool) :
    KbDeleteResult × Bool :=
  if !kb_found then (KbDeleteResult.httpError 404, false)
  else
    let errs1 : List String :=
      if minio_ok then [] else ["MinIO cleanup failed"]
    let cleanup_errors : List String :=
      errs1 ++ (if vector_ok then [] else ["Vector store cleanup failed"])
    if db_ok then
      if cleanup_errors.isEmpty then
        (KbDeleteResult.success
          "KB and all associated resources deleted successfully" [], true)
      else
        (KbDeleteResult.success "KB deleted with warnings" cleanup_errors,
          true)
    else (KbDeleteResult.httpError 500, false)

/-- Result of `DocumentService.delete_document`
(`app/services/document_service.py`): an `HTTPException`, or the success
payload. The returned Python dict carries boolean per-store flags
`chroma_deleted` / `minio_deleted` and has no `warnings` key; the absent
key is modelled as the `warnings` field being the empty list. -/
inductive DocDeleteResult where
  | httpError (code : Nat) : DocDeleteResult
  | success (chroma_deleted minio_deleted : Bool)
      (warnings : List String) : DocDeleteResult
deriving DecidableEq, Repr

/-- Embedding of `DocumentService.delete_document`
(`app/services/document_service.py` lines 428-525): 404 when neither a
`Document` nor a `DocumentUpload` matches; vector-store deletion is
attempted only for a processed document and its failure is logged, not
raised; MinIO deletion likewise; the relational cleanup (chunks,
document, upload) raises 500 and rolls back on failure; otherwise the
call returns the success dict with the per-store flags. The second
component reports whether the relational rows were deleted. -/
def delete_document (doc_found upload_found chroma_ok minio_ok db_ok :
    Bool) : DocDeleteResult × Bool :=
  if !doc_found && !upload_found then (DocDeleteResult.httpError 404, false)
  else
    let chroma_deleted := doc_found && chroma_ok
    let minio_deleted := minio_ok
    if db_ok then
      (DocDeleteResult.success chroma_deleted minio_deleted [], true)
    else (DocDeleteResult.httpError 500, false)

/-- A row of the `documents` table, restricted to the dedup-relevant
fields (`Document` in `app/models/knowledge.py`). -/
structure DocumentRow where
  id : Nat
  knowledge_base_id : Nat
  file_name : String
  file_hash : String
deriving DecidableEq, Repr

/-- A row of the `document_uploads` table
(`DocumentUpload` in `app/models/knowledge.py`). -/
structure DocumentUploadRow where
  id : Nat
  knowledge_base_id : Nat
  file_name : String
  file_hash : String
  temp_path : String
  status : String
deriving DecidableEq, Repr

/-- An inbound file: its original name and its full byte content
(represented as a string; the content is only read and digested). -/
structure UploadFileIn where
  filename : String
  content : String
deriving DecidableEq, Repr

/-- The relational state `upload_documents` reads and writes: the
`documents` table (dedup source) and the `document_uploads` staging
table. -/
structure StagingDb where
  documents : List DocumentRow
  uploads : List DocumentUploadRow
deriving DecidableEq, Repr

/-- One entry of the result list `upload_documents` builds: either the
`status="exists"` short-circuit entry carrying the existing document's
id with `skip_processing=True`, or the `status="pending"` entry carrying
the new staging row's id. -/
structure UploadItemResult where
  status : String
  file_name : String
  document_id : Option Nat
  upload_id : Option Nat
  temp_path : Option String
  skip_processing : Bool
deriving DecidableEq, Repr

/-- The per-file loop of `DocumentService.upload_documents`
(`app/services/document_service.py` lines 68-194): hash the content,
look for a `Document` with matching `(file_name, file_hash)` in the
knowledge base — if found, append the `exists` entry and write nothing;
otherwise write the content to the temp blob path — a blob-write failure
(`blob_ok` false for that file) raises `HTTPException(500)` on the spot,
persisting no staging row for that file and aborting the loop (rows
committed for earlier files remain) — and on success insert the
`DocumentUpload(status="pending")` row and append the `pending` entry.
The best-effort read-back verification loop mutates no state and is
omitted. `next_id` stands for the database-assigned primary key of the
next inserted staging row. -/
def upload_documents_go (digest : String → String) (kb_id : Nat)
    (blob_ok : String → Bool) :
    List UploadFileIn → StagingDb → Nat →
    Except Nat (List UploadItemResult) × StagingDb
  | [], db, _ => (Except.ok [], db)
  | f :: fs, db, next_id =>
    match db.documents.find? (fun d1 => decide (d1.file_name = f.filename ∧
        d1.file_hash = digest f.content ∧
        d1.knowledge_base_id = kb_id)) with
    | some d1 =>
      let item := UploadItemResult.mk "exists" d1.file_name (some d1.id)
        none none true
      let rest := upload_documents_go digest kb_id blob_ok fs db next_id
      (rest.1.map (fun items => item :: items), rest.2)
    | none =>
      if blob_ok f.filename then
        let temp_path := "kb_" ++ toString kb_id ++ "/temp/" ++ f.filename
        let upload := DocumentUploadRow.mk next_id kb_id f.filename
          (digest f.content) temp_path "pending"
        let db1 := StagingDb.mk db.documents (db.uploads ++ [upload])
        let item := UploadItemResult.mk "pending" f.filename none
          (some upload.id) (some temp_path) false
        let rest :=
          upload_documents_go digest kb_id blob_ok fs db1 (next_id + 1)
        (rest.1.map (fun items => item :: items), rest.2)
      else (Except.error 500, db)

/-- Embedding of `DocumentService.upload_documents`
(`app/services/document_service.py` lines 56-194): 404 when the
knowledge base does not exist, then the per-file staging loop. The error
component carries the `HTTPException` status code; the state component
is the relational state after the call, including rows committed before
a failure aborted the loop. -/
def upload_documents (digest : String → String) (kb_found : Bool)
    (kb_id : Nat) (blob_ok : String → Bool) (files : List UploadFileIn)
    (db : StagingDb) (next_id : Nat) :
    Except Nat (List UploadItemResult) × StagingDb :=
  if !kb_found then (Except.error 404, db)
  else upload_documents_go digest kb_id blob_ok files db next_id

/-- The identity digest, used to instantiate the abstract digest at
concrete witness inputs (any injective digest satisfies the hypotheses
the theorems place on it). -/
def idDigest : String → String := fun s => s

/-- Helper: replacing the (unique-by-lookup) task found by `find?` through
an id-preserving update leaves it the task `find?` returns, now updated. -/
theorem find?_map_update (task_id : Nat)
    (g : ProcessingTaskRow → ProcessingTaskRow)
    (hg : ∀ t, (g t).id = t.id) (l : List ProcessingTaskRow)
    (t : ProcessingTaskRow)
    (h : l.find? (fun x => decide (x.id = task_id)) = some t) :
    (l.map (fun x => if x.id = task_id then g x else x)).find?
      (fun x => decide (x.id = task_id)) = some (g t) := by
  induction l with
  | nil => simp at h
  | cons a l ih =>
    by_cases ha : a.id = task_id
    · have hat : a = t := by simpa [List.find?_cons, ha] using h
      subst hat
      simp [List.find?_cons, ha, hg]
    · have h2 : l.find? (fun x => decide (x.id = task_id)) = some t := by
        simpa [List.find?_cons, ha] using h
      simp only [List.map_cons, if_neg ha]
      rw [List.find?_cons_of_neg _ (by simp [ha])]
      exact ih h2

/-- Helper: when the task id is found, `update_status` returns the found
task with the field updates of `applyUpdate`. -/
theorem update_status_found (tasks : List ProcessingTaskRow)
    (task_id : Nat) (s : String) (em cid : Option String)
    (t : ProcessingTaskRow)
    (h : tasks.find? (fun x => decide (x.id = task_id)) = some t) :
    (update_status tasks task_id s em cid).2 = some (applyUpdate s em cid t) := by
  unfold update_status
  rw [h]
  exact find?_map_update task_id (applyUpdate s em cid) (fun _ => rfl) tasks t h

/-- C9: `generate_chunk_id` computes
`content_hash = digest(chunk_text ++ serialized_metadata)` and
`chunk_id = digest(kb_id ++ ":" ++ file_name ++ ":" ++ content_hash)`,
and it is pure and deterministic: the output pair is a function of the
inputs alone, so identical inputs always yield the identical
`(content_hash, chunk_id)` pair — in particular any two inputs with the
same digest of content plus metadata get the same chunk id. -/
theorem generate_chunk_id_formula :
    (∀ (digest : String → String) (kb_id : Nat)
      (file_name chunk_content chunk_metadata : String),
      generate_chunk_id digest kb_id file_name chunk_content chunk_metadata
        = (digest (chunk_content ++ chunk_metadata),
           digest (toString kb_id ++ ":" ++ file_name ++ ":"
             ++ digest (chunk_content ++ chunk_metadata))))
    ∧ (∀ (digest : String → String) (kb_id : Nat) (file_name : String)
      (c1 m1 c2 m2 : String),
      digest (c1 ++ m1) = digest (c2 ++ m2) →
      generate_chunk_id digest kb_id file_name c1 m1
        = generate_chunk_id digest kb_id file_name c2 m2) := by
  constructor
  · intro d kb fn c m
    rfl
  · intro d kb fn c1 m1 c2 m2 h
    unfold generate_chunk_id
    rw [h]

/-- C3 counterexample: a task whose status is the terminal `"completed"`
is changed to `"processing"` by a subsequent `update_status` call —
the service does not make terminal states immutable. -/
theorem update_status_terminal_mutates_cx :
    (update_status [ProcessingTaskRow.mk 1 "completed" none none] 1
      "processing" none none).2
      = some (ProcessingTaskRow.mk 1 "processing" none none)
    ∧ "processing" ≠ "completed" := by
  constructor
  · rfl
  · decide

/-- C3 (amended): `update_status` overwrites the found task's status
unconditionally with the requested status — there is no terminal-state
guard, so a task in `completed` or `failed` transitions again on any
subsequent update (the repository's own
`test_mark_status_helpers` exercises completed → failed). -/
theorem update_status_overwrites (tasks : List ProcessingTaskRow)
    (task_id : Nat) (s : String) (em cid : Option String)
    (t : ProcessingTaskRow)
    (h : tasks.find? (fun x => decide (x.id = task_id)) = some t) :
    (update_status tasks task_id s em cid).2
        = some (applyUpdate s em cid t)
    ∧ ((update_status tasks task_id s em cid).2.map
        ProcessingTaskRow.status) = some s := by
  have h1 := update_status_found tasks task_id s em cid t h
  exact ⟨h1, by rw [h1]; rfl⟩

/-- C3 witness: the amended theorem applied to a concrete `completed`
task being marked failed. -/
theorem update_status_overwrites_witness :
    ([ProcessingTaskRow.mk 1 "completed" none none].find?
      (fun x => decide (x.id = 1))
      = some (ProcessingTaskRow.mk 1 "completed" none none))
    ∧ ((update_status [ProcessingTaskRow.mk 1 "completed" none none] 1
        "failed" (some "boom") none).2
        = some (applyUpdate "failed" (some "boom") none
            (ProcessingTaskRow.mk 1 "completed" none none))
      ∧ ((update_status [ProcessingTaskRow.mk 1 "completed" none none] 1
          "failed" (some "boom") none).2.map ProcessingTaskRow.status)
          = some "failed") :=
  ⟨rfl, update_status_overwrites
    [ProcessingTaskRow.mk 1 "completed" none none] 1 "failed" (some "boom")
    none (ProcessingTaskRow.mk 1 "completed" none none) rfl⟩

/-- C10: the knowledge-base deletion route's post-enqueue call
`update_status(task_id=..., celery_task_id=...)` omits the status, so
Python's declared default `"pending"` applies: the task's status is reset
to `"pending"` regardless of its current status (the handle is attached,
but the status field is not left unchanged). -/
theorem attach_handle_resets_to_pending (tasks : List ProcessingTaskRow)
    (task_id : Nat) (cid : String) (t : ProcessingTaskRow)
    (h : tasks.find? (fun x => decide (x.id = task_id)) = some t)
    (hc : cid ≠ "") :
    (attach_celery_handle tasks task_id cid).2
      = some (ProcessingTaskRow.mk t.id "pending" t.error_message
          (some cid)) := by
  have h1 := update_status_found tasks task_id "pending" none (some cid) t h
  unfold attach_celery_handle
  rw [h1]
  simp [applyUpdate, pyTruthy, hc]

/-- C10 witness: attaching a concrete celery handle to a `completed` task
resets its status to `"pending"`. -/
theorem attach_handle_resets_to_pending_witness :
    ([ProcessingTaskRow.mk 4 "completed" none none].find?
      (fun x => decide (x.id = 4))
      = some (ProcessingTaskRow.mk 4 "completed" none none))
    ∧ "abc" ≠ ""
    ∧ (attach_celery_handle [ProcessingTaskRow.mk 4 "completed" none none]
        4 "abc").2
        = some (ProcessingTaskRow.mk 4 "pending" none (some "abc")) :=
  ⟨rfl, by decide,
    attach_handle_resets_to_pending
      [ProcessingTaskRow.mk 4 "completed" none none] 4 "abc"
      (ProcessingTaskRow.mk 4 "completed" none none) rfl (by decide)⟩

/-- C5 counterexample: in the always-failing cleanup run, the write right
after the first attempt's failure already sets status `"failed"` (the
second write of the trace), while the retry budget is far from exhausted
(the trace goes on to 12 writes across 6 executions) — the claim that
each earlier failed attempt keeps `status="processing"` and that the task
reaches `"failed"` only after the full budget is false. -/
theorem cleanup_marks_failed_early_cx :
    ((cleanup_kb_task_run (fun _ => some "boom")).writes[1]?
      = some ("failed", some "boom"))
    ∧ (cleanup_kb_task_run (fun _ => some "boom")).writes.length = 12 := by
  constructor
  · rfl
  · rfl

/-- C5 (amended): a cleanup task failing on every attempt executes 6
times (the initial run plus the configured budget of `max_retries=5`
retries); each execution writes `processing` and then, on its failure,
immediately writes `failed` together with the error message; the i-th
retry is delayed by `min(300, 20 * 2^i)` — concretely
`[40, 80, 160, 300, 300]` — and after the budget is exhausted the task
escalates the permanent failure. -/
theorem cleanup_always_failing_trace (e : String) :
    cleanup_kb_task_run (fun _ => some e)
      = CleanupTrace.mk
        [("processing", none), ("failed", some e),
         ("processing", none), ("failed", some e),
         ("processing", none), ("failed", some e),
         ("processing", none), ("failed", some e),
         ("processing", none), ("failed", some e),
         ("processing", none), ("failed", some e)]
        [40, 80, 160, 300, 300] true := by
  rfl

/-- C4 counterexample: syncing one new chunk against an empty state with
the vector-store `add_documents` call raising yields a state whose
relational ledger contains the chunk row while the vector index does
not — the "recorded but not indexed" state the claim says is never
reached. -/
theorem relational_before_vector_cx :
    (process_document idDigest 1 "f" 7 [TextChunk.mk "c" ""] false
      (SyncState.mk [] [])).state.rows
      = [ChunkRow.mk "1:f:c" 1 7 "f" "c"]
    ∧ (process_document idDigest 1 "f" 7 [TextChunk.mk "c" ""] false
      (SyncState.mk [] [])).state.vectorIds = []
    ∧ (process_document idDigest 1 "f" 7 [TextChunk.mk "c" ""] false
      (SyncState.mk [] [])).ok = false := by
  refine ⟨rfl, rfl, rfl⟩

/-- C4 (amended): for each batch of added chunks the relational ledger
rows are written BEFORE the vector-index call, and a vector-index
failure does not roll the batch's relational insert back: the run aborts
with the new rows already in the relational store and the vector index
unchanged, so a chunk can be recorded in the relational store while its
vector-index write has not succeeded. -/
theorem vector_failure_keeps_relational (d : String → String)
    (kb did : Nat) (fn : String) (cands : List TextChunk) (st : SyncState)
    (h : (prepareChunks d kb fn did (list_chunks kb st.rows fn) cands).2
      ≠ []) :
    process_document d kb fn did cands false st
      = SyncRun.mk
          (SyncState.mk
            (add_chunks st.rows
              (prepareChunks d kb fn did (list_chunks kb st.rows fn)
                cands).2)
            st.vectorIds)
          (prepareChunks d kb fn did (list_chunks kb st.rows fn) cands).2
          [] false := by
  have hne : (prepareChunks d kb fn did (list_chunks kb st.rows fn)
      cands).2.isEmpty = false := by
    cases hx : (prepareChunks d kb fn did (list_chunks kb st.rows fn)
      cands).2 with
    | nil => exact absurd hx h
    | cons a l => rfl
  unfold process_document
  simp [hne]

/-- C4 witness: the relational-before-vector theorem applied to a
concrete one-chunk sync against an empty state. -/
theorem vector_failure_keeps_relational_witness :
    ((prepareChunks idDigest 1 "f" 7 (list_chunks 1 [] "f")
      [TextChunk.mk "c" ""]).2 ≠ [])
    ∧ process_document idDigest 1 "f" 7 [TextChunk.mk "c" ""] false
        (SyncState.mk [] [])
      = SyncRun.mk
          (SyncState.mk
            (add_chunks []
              (prepareChunks idDigest 1 "f" 7 (list_chunks 1 [] "f")
                [TextChunk.mk "c" ""]).2)
            [])
          (prepareChunks idDigest 1 "f" 7 (list_chunks 1 [] "f")
            [TextChunk.mk "c" ""]).2
          [] false :=
  ⟨by decide,
    vector_failure_keeps_relational idDigest 1 7 "f" [TextChunk.mk "c" ""]
      (SyncState.mk [] []) (by decide)⟩

/-- The `cleanup_errors` list `delete_kb` accumulates for the two
best-effort store cleanups. -/
def kbWarnings (minio_ok vector_ok : Bool) : List String :=
  (if minio_ok then [] else ["MinIO cleanup failed"])
    ++ (if vector_ok then [] else ["Vector store cleanup failed"])

/-- C6 counterexample: deleting a processed document whose blob-store
deletion fails while the vector deletion succeeds still deletes the
relational rows and returns success — but the response carries NO
warnings list (the dict has no warnings key, only the per-store boolean
flags), refuting the claim that the caller receives a non-empty
`warnings` list for document deletion. -/
theorem delete_document_no_warnings_cx :
    delete_document true false true false true
      = (DocDeleteResult.success true false [], true) := by
  rfl

/-- C6 (amended): on a partial store failure during deletion the
relational rows are still deleted and the caller receives success, never
an error; for knowledge-base deletion the success response carries the
non-empty `warnings` list of per-store failures, while for document
deletion the response instead carries the per-store boolean flags
(`chroma_deleted` / `minio_deleted`, false for the failed store) and no
warnings list. -/
theorem delete_partial_failure_behavior
    (minio_ok vector_ok chroma_ok minio_ok2 upload_found : Bool)
    (hkb : minio_ok = false ∨ vector_ok = false)
    (hdoc : chroma_ok = false ∨ minio_ok2 = false) :
    (delete_kb true minio_ok vector_ok true
        = (KbDeleteResult.success "KB deleted with warnings"
            (kbWarnings minio_ok vector_ok), true)
      ∧ kbWarnings minio_ok vector_ok ≠ [])
    ∧ delete_document true upload_found chroma_ok minio_ok2 true
        = (DocDeleteResult.success chroma_ok minio_ok2 [], true) := by
  refine ⟨⟨?_, ?_⟩, ?_⟩
  · cases minio_ok <;> cases vector_ok <;>
      first
        | rfl
        | (rcases hkb with h | h <;> exact absurd h (by decide))
  · cases minio_ok <;> cases vector_ok <;>
      first
        | decide
        | (rcases hkb with h | h <;> exact absurd h (by decide))
  · cases upload_found <;> cases chroma_ok <;> cases minio_ok2 <;> rfl

/-- C6 witness: the amended theorem applied to a blob-store failure with
successful vector deletion on both a knowledge base and a document. -/
theorem delete_partial_failure_behavior_witness :
    ((false : Bool) = false ∨ (true : Bool) = false)
    ∧ ((true : Bool) = false ∨ (false : Bool) = false)
    ∧ ((delete_kb true false true true
        = (KbDeleteResult.success "KB deleted with warnings"
            (kbWarnings false true), true)
      ∧ kbWarnings false true ≠ [])
    ∧ delete_document true false true false true
        = (DocDeleteResult.success true false [], true)) :=
  ⟨Or.inl rfl, Or.inr rfl,
    delete_partial_failure_behavior false true true false false
      (Or.inl rfl) (Or.inr rfl)⟩

/-- C7: when a `Document` with matching `(file_name, file_hash)` already
exists in the knowledge base, staging that file short-circuits with a
single `status="exists"` entry carrying the existing document's id, and
the relational state — in particular the `document_uploads` staging
table — is unchanged; staging the byte-identical file again therefore
returns `exists` again, with still no staging row created. -/
theorem upload_dedup_short_circuit (d : String → String)
    (kb_id next_id : Nat) (blob_ok : String → Bool) (db : StagingDb)
    (f : UploadFileIn) (d1 : DocumentRow)
    (h : db.documents.find? (fun x => decide (x.file_name = f.filename ∧
      x.file_hash = d f.content ∧ x.knowledge_base_id = kb_id))
      = some d1) :
    upload_documents d true kb_id blob_ok [f] db next_id
      = (Except.ok [UploadItemResult.mk "exists" d1.file_name (some d1.id)
          none none true], db)
    ∧ upload_documents d true kb_id blob_ok [f]
        (upload_documents d true kb_id blob_ok [f] db next_id).2 next_id
      = (Except.ok [UploadItemResult.mk "exists" d1.file_name (some d1.id)
          none none true], db) := by
  have h1 : upload_documents d true kb_id blob_ok [f] db next_id
      = (Except.ok [UploadItemResult.mk "exists" d1.file_name (some d1.id)
          none none true], db) := by
    unfold upload_documents upload_documents_go
    rw [h]
    rfl
  exact ⟨h1, by rw [h1]; exact h1⟩

/-- C7 witness: the dedup theorem applied to a concrete knowledge base
holding the matching document. -/
theorem upload_dedup_short_circuit_witness :
    ((StagingDb.mk [DocumentRow.mk 9 1 "a.txt" "data"] []).documents.find?
      (fun x => decide (x.file_name = "a.txt" ∧
        x.file_hash = idDigest "data" ∧ x.knowledge_base_id = 1))
      = some (DocumentRow.mk 9 1 "a.txt" "data"))
    ∧ (upload_documents idDigest true 1 (fun _ => true)
        [UploadFileIn.mk "a.txt" "data"]
        (StagingDb.mk [DocumentRow.mk 9 1 "a.txt" "data"] []) 10
      = (Except.ok [UploadItemResult.mk "exists" "a.txt" (some 9)
          none none true],
         StagingDb.mk [DocumentRow.mk 9 1 "a.txt" "data"] [])
    ∧ upload_documents idDigest true 1 (fun _ => true)
        [UploadFileIn.mk "a.txt" "data"]
        (upload_documents idDigest true 1 (fun _ => true)
          [UploadFileIn.mk "a.txt" "data"]
          (StagingDb.mk [DocumentRow.mk 9 1 "a.txt" "data"] []) 10).2 10
      = (Except.ok [UploadItemResult.mk "exists" "a.txt" (some 9)
          none none true],
         StagingDb.mk [DocumentRow.mk 9 1 "a.txt" "data"] [])) :=
  ⟨rfl, upload_dedup_short_circuit idDigest 1 10 (fun _ => true)
    (StagingDb.mk [DocumentRow.mk 9 1 "a.txt" "data"] [])
    (UploadFileIn.mk "a.txt" "data") (DocumentRow.mk 9 1 "a.txt" "data")
    rfl⟩

/-- C8: when no matching document exists and the blob-store write for the
file fails, the staging call fails synchronously with an
`HTTPException(500)` and the relational state is unchanged — no
`DocumentUpload` row is persisted and nothing retries at this layer. -/
theorem upload_blob_failure_nothing_persisted (d : String → String)
    (kb_id next_id : Nat) (blob_ok : String → Bool) (db : StagingDb)
    (f : UploadFileIn)
    (hno : db.documents.find? (fun x => decide (x.file_name = f.filename ∧
      x.file_hash = d f.content ∧ x.knowledge_base_id = kb_id)) = none)
    (hblob : blob_ok f.filename = false) :
    upload_documents d true kb_id blob_ok [f] db next_id
      = (Except.error 500, db) := by
  unfold upload_documents upload_documents_go
  rw [hno]
  simp [hblob]

/-- C8 witness: the blob-failure theorem applied to a concrete staging
call whose blob write fails. -/
theorem upload_blob_failure_nothing_persisted_witness :
    ((StagingDb.mk [] []).documents.find?
      (fun x => decide (x.file_name = "a.txt" ∧
        x.file_hash = idDigest "data" ∧ x.knowledge_base_id = 1)) = none)
    ∧ ((fun _ : String => false) "a.txt" = false)
    ∧ upload_documents idDigest true 1 (fun _ => false)
        [UploadFileIn.mk "a.txt" "data"] (StagingDb.mk [] []) 10
      = (Except.error 500, StagingDb.mk [] []) :=
  ⟨rfl, rfl, upload_blob_failure_nothing_persisted idDigest 1 10
    (fun _ => false) (StagingDb.mk [] []) (UploadFileIn.mk "a.txt" "data")
    rfl rfl⟩

/-- The chunk row the preparation loop builds for a candidate the diff
decides to add. -/
def mkNewRow (d : String → String) (kb did : Nat) (fn : String)
    (c : TextChunk) : ChunkRow :=
  ChunkRow.mk (generate_chunk_id d kb fn c.content c.metaStr).2 kb did fn
    (generate_chunk_id d kb fn c.content c.metaStr).1

/-- The string `generate_chunk_id` digests to obtain the chunk id. -/
def chunkKey (kb : Nat) (fn h : String) : String :=
  toString kb ++ ":" ++ fn ++ ":" ++ h

/-- Helper: the `current_hashes` accumulated by the preparation loop are
exactly the candidates' content hashes, in order. -/
theorem prepareChunks_fst (d : String → String) (kb did : Nat)
    (fn : String) (ex : List String) (cs : List TextChunk) :
    (prepareChunks d kb fn did ex cs).1 = cs.map (candidateHash d) := by
  induction cs with
  | nil => rfl
  | cons c cs ih =>
    simp only [prepareChunks]
    split <;> simp [ih, candidateHash, generate_chunk_id]

/-- Helper: the `new_chunks` built by the preparation loop are exactly
the rows for the candidates whose content hash is not among the existing
hashes. -/
theorem prepareChunks_snd (d : String → String) (kb did : Nat)
    (fn : String) (ex : List String) (cs : List TextChunk) :
    (prepareChunks d kb fn did ex cs).2
      = (cs.filter (fun c => decide (candidateHash d c ∉ ex))).map
          (mkNewRow d kb did fn) := by
  induction cs with
  | nil => rfl
  | cons c cs ih =>
    have hgen : (generate_chunk_id d kb fn c.content c.metaStr).1
        = candidateHash d c := rfl
    simp only [prepareChunks, List.filter_cons]
    by_cases hc : candidateHash d c ∈ ex
    · rw [hgen, if_pos hc]
      simp [hc, ih]
    · rw [hgen, if_neg hc]
      simp [hc, ih, mkNewRow, hgen]

/-- Helper: the addition guard `if new_chunks:` is semantically
transparent — adding an empty batch is a no-op. -/
theorem add_guard (rows l : List ChunkRow) :
    (if l.isEmpty then rows else add_chunks rows l) = add_chunks rows l := by
  cases l with
  | nil => simp [add_chunks]
  | cons a t => rfl

/-- Helper: the vector-addition guard is semantically transparent. -/
theorem vecadd_guard (v : List String) (l : List ChunkRow) :
    (if l.isEmpty then v else v ++ l.map ChunkRow.id)
      = v ++ l.map ChunkRow.id := by
  cases l with
  | nil => simp
  | cons a t => rfl

/-- Helper: the deletion guard `if chunks_to_delete:` is semantically
transparent — deleting an empty id list is a no-op. -/
theorem del_guard (rows : List ChunkRow) (ids : List String) :
    (if ids.isEmpty then rows else delete_chunks rows ids)
      = delete_chunks rows ids := by
  cases ids with
  | nil => simp [delete_chunks]
  | cons a t => rfl

/-- Helper: the vector-deletion guard is semantically transparent. -/
theorem vecdel_guard (v ids : List String) :
    (if ids.isEmpty then v else v.filter (fun i => decide (i ∉ ids)))
      = v.filter (fun i => decide (i ∉ ids)) := by
  cases ids with
  | nil => simp
  | cons a t => rfl

/-- The addition batch a synchronization pass computes. -/
def syncNew (d : String → String) (kb did : Nat) (fn : String)
    (cands : List TextChunk) (st : SyncState) : List ChunkRow :=
  (prepareChunks d kb fn did (list_chunks kb st.rows fn) cands).2

/-- The current-hash list a synchronization pass computes. -/
def syncCur (d : String → String) (kb did : Nat) (fn : String)
    (cands : List TextChunk) (st : SyncState) : List String :=
  (prepareChunks d kb fn did (list_chunks kb st.rows fn) cands).1

/-- The deletion list a synchronization pass computes (on the rows as
they stand after the addition batch was inserted). -/
def syncDels (d : String → String) (kb did : Nat) (fn : String)
    (cands : List TextChunk) (st : SyncState) : List String :=
  get_deleted_chunks kb (add_chunks st.rows (syncNew d kb did fn cands st))
    (syncCur d kb did fn cands st) fn

/-- Helper: closed form of a successful synchronization pass — the
no-op guards eliminated. -/
theorem process_document_true_eq (d : String → String) (kb did : Nat)
    (fn : String) (cands : List TextChunk) (st : SyncState) :
    process_document d kb fn did cands true st
      = SyncRun.mk
          (SyncState.mk
            (delete_chunks
              (add_chunks st.rows (syncNew d kb did fn cands st))
              (syncDels d kb did fn cands st))
            ((st.vectorIds
                ++ (syncNew d kb did fn cands st).map ChunkRow.id).filter
              (fun i => decide (i ∉ syncDels d kb did fn cands st))))
          (syncNew d kb did fn cands st) (syncDels d kb did fn cands st)
          true := by
  simp only [process_document, syncNew, syncCur, syncDels, add_guard,
    vecadd_guard, del_guard, vecdel_guard, or_true, if_true]

/-- Helper: the digest argument `generate_chunk_id` uses for the chunk id
is injective in the content hash, for a fixed knowledge base and file. -/
theorem chunkKey_inj (kb : Nat) (fn : String) (h1 h2 : String)
    (h : chunkKey kb fn h1 = chunkKey kb fn h2) : h1 = h2 := by
  have hd : (chunkKey kb fn h1).data = (chunkKey kb fn h2).data := by rw [h]
  simp only [chunkKey, String.data_append, List.append_assoc] at hd
  exact String.ext (List.append_cancel_left (List.append_cancel_left
    (List.append_cancel_left (List.append_cancel_left hd))))

/-- Helper: the current-hash list of a pass is the candidates' content
hashes. -/
theorem syncCur_eq (d : String → String) (kb did : Nat) (fn : String)
    (cands : List TextChunk) (st : SyncState) :
    syncCur d kb did fn cands st = cands.map (candidateHash d) := by
  simp [syncCur, prepareChunks_fst]

/-- Helper: every row of the addition batch carries the content hash of
one of the candidates. -/
theorem syncNew_hash_mem (d : String → String) (kb did : Nat)
    (fn : String) (cands : List TextChunk) (st : SyncState) :
    ∀ r ∈ syncNew d kb did fn cands st,
      r.hash ∈ cands.map (candidateHash d) := by
  intro r hr
  simp only [syncNew, prepareChunks_snd, List.mem_map,
    List.mem_filter] at hr
  obtain ⟨c, ⟨hc_mem, _⟩, rfl⟩ := hr
  exact List.mem_map.mpr ⟨c, hc_mem, rfl⟩

/-- Helper: no row of the addition batch matches the deleted-chunk
predicate — its hash is always among the candidates' hashes. -/
theorem syncNew_filter_nil (d : String → String) (kb did : Nat)
    (fn : String) (cands : List TextChunk) (st : SyncState) :
    (syncNew d kb did fn cands st).filter
      (fun r => decide (r.kb_id = kb ∧ r.file_name = fn ∧
        r.hash ∉ cands.map (candidateHash d))) = [] := by
  rw [List.filter_eq_nil_iff]
  intro r hr hq
  rw [decide_eq_true_eq] at hq
  exact hq.2.2 (syncNew_hash_mem d kb did fn cands st r hr)

/-- C1: the synchronization diff is exact — the added chunks are exactly
the candidates whose content hash is not among the hashes already
recorded for the file, and the deleted chunk ids are exactly those of
the recorded rows whose content hash is not among the candidates'
hashes; in particular with recorded hashes `h1, h2, h3` and candidate
hashes `h1, h2, h4` the pass adds exactly the `h4` chunk and deletes
exactly the `h3` row. -/
theorem chunk_diff_correct :
    (∀ (d : String → String) (kb did : Nat) (fn : String)
      (cands : List TextChunk) (st : SyncState),
      (process_document d kb fn did cands true st).additions.map
          ChunkRow.hash
        = (cands.filter (fun c =>
            decide (candidateHash d c ∉ list_chunks kb st.rows fn))).map
            (candidateHash d)
      ∧ (process_document d kb fn did cands true st).deletions
        = (st.rows.filter (fun r => decide (r.kb_id = kb ∧
            r.file_name = fn ∧
            r.hash ∉ cands.map (candidateHash d)))).map ChunkRow.id)
    ∧ ((process_document idDigest 1 "f.txt" 7
          [TextChunk.mk "h1" "", TextChunk.mk "h2" "", TextChunk.mk "h4" ""]
          true
          (SyncState.mk
            [ChunkRow.mk "r1" 1 7 "f.txt" "h1",
             ChunkRow.mk "r2" 1 7 "f.txt" "h2",
             ChunkRow.mk "r3" 1 7 "f.txt" "h3"]
            ["r1", "r2", "r3"])).additions.map ChunkRow.hash = ["h4"]
      ∧ (process_document idDigest 1 "f.txt" 7
          [TextChunk.mk "h1" "", TextChunk.mk "h2" "", TextChunk.mk "h4" ""]
          true
          (SyncState.mk
            [ChunkRow.mk "r1" 1 7 "f.txt" "h1",
             ChunkRow.mk "r2" 1 7 "f.txt" "h2",
             ChunkRow.mk "r3" 1 7 "f.txt" "h3"]
            ["r1", "r2", "r3"])).deletions = ["r3"]) := by
  constructor
  · intro d kb did fn cands st
    constructor
    · rw [process_document_true_eq]
      simp [syncNew, prepareChunks_snd, mkNewRow, candidateHash,
        generate_chunk_id, Function.comp]
    · rw [process_document_true_eq]
      show syncDels d kb did fn cands st = _
      unfold syncDels
      rw [syncCur_eq]
      unfold get_deleted_chunks add_chunks
      rw [List.filter_append, List.map_append,
        syncNew_filter_nil d kb did fn cands st, List.map_nil,
        List.append_nil]
  · constructor
    · decide
    · decide

/-- Helper: shape of the rows the addition batch inserts — owned by the
knowledge base and file of the pass, with the content-derived id the
code generates and a hash drawn from the candidates. -/
theorem syncNew_shape (d : String → String) (kb did : Nat) (fn : String)
    (cands : List TextChunk) (st : SyncState) :
    ∀ r ∈ syncNew d kb did fn cands st,
      r.kb_id = kb ∧ r.file_name = fn ∧
      r.id = d (chunkKey kb fn r.hash) ∧
      r.hash ∈ cands.map (candidateHash d) := by
  intro r hr
  simp only [syncNew, prepareChunks_snd, List.mem_map,
    List.mem_filter] at hr
  obtain ⟨c, ⟨hc, _⟩, rfl⟩ := hr
  exact ⟨rfl, rfl, rfl, List.mem_map.mpr ⟨c, hc, rfl⟩⟩

/-- Helper: the rows of the resulting state of a successful pass. -/
theorem sync_state_rows (d : String → String) (kb did : Nat)
    (fn : String) (cands : List TextChunk) (st : SyncState) :
    ((process_document d kb fn did cands true st).state).rows
      = delete_chunks
          (add_chunks st.rows (syncNew d kb did fn cands st))
          (syncDels d kb did fn cands st) := by
  rw [process_document_true_eq]

/-- Helper: membership in the deletion list of a pass. -/
theorem syncDels_mem (d : String → String) (kb did : Nat) (fn : String)
    (cands : List TextChunk) (st : SyncState) (x : String) :
    x ∈ syncDels d kb did fn cands st
      ↔ ∃ r2, (r2 ∈ add_chunks st.rows (syncNew d kb did fn cands st)
          ∧ (r2.kb_id = kb ∧ r2.file_name = fn ∧
             r2.hash ∉ cands.map (candidateHash d)))
          ∧ r2.id = x := by
  simp only [syncDels, get_deleted_chunks, syncCur_eq, List.mem_map,
    List.mem_filter, decide_eq_true_eq]

/-- Helper: well-formedness of the combined row list — when the rows
already in the store carry the content-derived ids the code generates,
so do all rows after the addition batch. -/
theorem sync_rows1_wf (d : String → String) (kb did : Nat) (fn : String)
    (cands : List TextChunk) (st : SyncState)
    (hwf : ∀ r ∈ st.rows, r.kb_id = kb → r.file_name = fn →
      r.id = d (chunkKey kb fn r.hash)) :
    ∀ r ∈ add_chunks st.rows (syncNew d kb did fn cands st),
      r.kb_id = kb → r.file_name = fn →
      r.id = d (chunkKey kb fn r.hash) := by
  intro r hr
  rcases List.mem_append.mp hr with h1 | h2
  · exact hwf r h1
  · intro _ _
    exact (syncNew_shape d kb did fn cands st r h2).2.2.1

/-- Helper: a row of the pass whose hash is among the candidates'
hashes survives the deletion phase (under an injective digest and
well-formed ids). -/
theorem sync_kept (d : String → String) (hinj : Function.Injective d)
    (kb did : Nat) (fn : String) (cands : List TextChunk) (st : SyncState)
    (hwf : ∀ r ∈ st.rows, r.kb_id = kb → r.file_name = fn →
      r.id = d (chunkKey kb fn r.hash)) :
    ∀ r ∈ add_chunks st.rows (syncNew d kb did fn cands st),
      r.kb_id = kb → r.file_name = fn →
      r.hash ∈ cands.map (candidateHash d) →
      r ∈ delete_chunks
        (add_chunks st.rows (syncNew d kb did fn cands st))
        (syncDels d kb did fn cands st) := by
  intro r hr hk hf hh
  have hid : r.id ∉ syncDels d kb did fn cands st := by
    intro hmem
    obtain ⟨r2, ⟨hr2, hk2, hf2, hh2⟩, hid2⟩ :=
      (syncDels_mem d kb did fn cands st r.id).mp hmem
    have e1 : r.id = d (chunkKey kb fn r.hash) :=
      sync_rows1_wf d kb did fn cands st hwf r hr hk hf
    have e2 : r2.id = d (chunkKey kb fn r2.hash) :=
      sync_rows1_wf d kb did fn cands st hwf r2 hr2 hk2 hf2
    have ekey : chunkKey kb fn r2.hash = chunkKey kb fn r.hash :=
      hinj (by rw [← e1, ← e2, hid2])
    have ehash : r2.hash = r.hash := chunkKey_inj kb fn _ _ ekey
    exact hh2 (ehash ▸ hh)
  exact List.mem_filter.mpr ⟨hr, decide_eq_true hid⟩

/-- Helper: every row of the pass's file that survives the deletion
phase has its hash among the candidates' hashes. -/
theorem sync_surviving_hash (d : String → String) (kb did : Nat)
    (fn : String) (cands : List TextChunk) (st : SyncState) :
    ∀ r ∈ delete_chunks
        (add_chunks st.rows (syncNew d kb did fn cands st))
        (syncDels d kb did fn cands st),
      r.kb_id = kb → r.file_name = fn →
      r.hash ∈ cands.map (candidateHash d) := by
  intro r hr hk hf
  have hr1 : r ∈ add_chunks st.rows (syncNew d kb did fn cands st) :=
    List.mem_of_mem_filter hr
  have hnid := (List.mem_filter.mp hr).2
  rw [decide_eq_true_eq] at hnid
  by_contra hnot
  exact hnid ((syncDels_mem d kb did fn cands st r.id).mpr
    ⟨r, ⟨hr1, hk, hf, hnot⟩, rfl⟩)

/-- Helper: after a successful pass, every candidate hash is recorded
for the file (under an injective digest and well-formed ids). -/
theorem sync_hashes_recorded (d : String → String)
    (hinj : Function.Injective d) (kb did : Nat) (fn : String)
    (cands : List TextChunk) (st : SyncState)
    (hwf : ∀ r ∈ st.rows, r.kb_id = kb → r.file_name = fn →
      r.id = d (chunkKey kb fn r.hash)) :
    ∀ c ∈ cands, candidateHash d c ∈
      list_chunks kb
        (delete_chunks
          (add_chunks st.rows (syncNew d kb did fn cands st))
          (syncDels d kb did fn cands st)) fn := by
  intro c hc
  by_cases hex : candidateHash d c ∈ list_chunks kb st.rows fn
  · simp only [list_chunks, List.mem_map, List.mem_filter,
      decide_eq_true_eq] at hex
    obtain ⟨r, ⟨hrs, hk, hf⟩, hhash⟩ := hex
    have hr1 : r ∈ add_chunks st.rows (syncNew d kb did fn cands st) :=
      List.mem_append_left _ hrs
    have hcur : r.hash ∈ cands.map (candidateHash d) := by
      rw [hhash]
      exact List.mem_map.mpr ⟨c, hc, rfl⟩
    have hkept := sync_kept d hinj kb did fn cands st hwf r hr1 hk hf hcur
    simp only [list_chunks, List.mem_map, List.mem_filter,
      decide_eq_true_eq]
    exact ⟨r, ⟨hkept, hk, hf⟩, hhash⟩
  · have hmemnew : mkNewRow d kb did fn c ∈ syncNew d kb did fn cands st := by
      simp only [syncNew, prepareChunks_snd]
      exact List.mem_map.mpr
        ⟨c, List.mem_filter.mpr ⟨hc, decide_eq_true hex⟩, rfl⟩
    have hr1 : mkNewRow d kb did fn c
        ∈ add_chunks st.rows (syncNew d kb did fn cands st) :=
      List.mem_append_right _ hmemnew
    have hcur : (mkNewRow d kb did fn c).hash
        ∈ cands.map (candidateHash d) :=
      List.mem_map.mpr ⟨c, hc, rfl⟩
    have hkept := sync_kept d hinj kb did fn cands st hwf
      (mkNewRow d kb did fn c) hr1 rfl rfl hcur
    simp only [list_chunks, List.mem_map, List.mem_filter,
      decide_eq_true_eq]
    exact ⟨mkNewRow d kb did fn c, ⟨hkept, rfl, rfl⟩, rfl⟩

/-- C2: the chunk synchronizer is idempotent — running the pass a second
time on unchanged candidates computes zero additions and zero deletions
(and by the addition/deletion guards in the code performs zero store
writes). Hypotheses: the digest is injective (the code's sha256 is
treated as collision-free) and the rows already in the store carry the
content-derived ids the code itself generates (the primary-key discipline
of `document_chunks`). -/
theorem sync_idempotent (d : String → String)
    (hinj : Function.Injective d) (kb did : Nat) (fn : String)
    (cands : List TextChunk) (st : SyncState)
    (hwf : ∀ r ∈ st.rows, r.kb_id = kb → r.file_name = fn →
      r.id = d (chunkKey kb fn r.hash)) :
    (process_document d kb fn did cands true
      ((process_document d kb fn did cands true st).state)).additions = []
    ∧ (process_document d kb fn did cands true
      ((process_document d kb fn did cands true st).state)).deletions
        = [] := by
  have hA : syncNew d kb did fn cands
      ((process_document d kb fn did cands true st).state) = [] := by
    simp only [syncNew, prepareChunks_snd]
    have hnil : cands.filter (fun c => decide (candidateHash d c
        ∉ list_chunks kb
          ((process_document d kb fn did cands true st).state).rows fn))
        = [] := by
      rw [List.filter_eq_nil_iff]
      intro c hc hq
      rw [decide_eq_true_eq] at hq
      apply hq
      rw [sync_state_rows]
      exact sync_hashes_recorded d hinj kb did fn cands st hwf c hc
    rw [hnil, List.map_nil]
  have hB : syncDels d kb did fn cands
      ((process_document d kb fn did cands true st).state) = [] := by
    unfold syncDels
    rw [syncCur_eq, hA]
    have hadd : add_chunks
        ((process_document d kb fn did cands true st).state).rows []
        = ((process_document d kb fn did cands true st).state).rows := by
      simp [add_chunks]
    rw [hadd]
    unfold get_deleted_chunks
    have hnil : (((process_document d kb fn did cands
        true st).state).rows).filter
        (fun r => decide (r.kb_id = kb ∧ r.file_name = fn ∧
          r.hash ∉ cands.map (candidateHash d))) = [] := by
      rw [List.filter_eq_nil_iff]
      intro r hr hq
      rw [decide_eq_true_eq] at hq
      obtain ⟨hk, hf, hnot⟩ := hq
      apply hnot
      refine sync_surviving_hash d kb did fn cands st r ?_ hk hf
      rw [sync_state_rows] at hr
      exact hr
    rw [hnil, List.map_nil]
  constructor
  · rw [process_document_true_eq d kb did fn cands
      ((process_document d kb fn did cands true st).state)]
    exact hA
  · rw [process_document_true_eq d kb did fn cands
      ((process_document d kb fn did cands true st).state)]
    exact hB

/-- C2 witness: the idempotence theorem applied to a concrete one-chunk
sync from the empty state, with the identity digest (injective). -/
theorem sync_idempotent_witness :
    Function.Injective idDigest
    ∧ (∀ r ∈ (SyncState.mk [] []).rows, r.kb_id = 1 → r.file_name = "f" →
        r.id = idDigest (chunkKey 1 "f" r.hash))
    ∧ ((process_document idDigest 1 "f" 7 [TextChunk.mk "c" ""] true
        ((process_document idDigest 1 "f" 7 [TextChunk.mk "c" ""] true
          (SyncState.mk [] [])).state)).additions = []
      ∧ (process_document idDigest 1 "f" 7 [TextChunk.mk "c" ""] true
        ((process_document idDigest 1 "f" 7 [TextChunk.mk "c" ""] true
          (SyncState.mk [] [])).state)).deletions = []) :=
  ⟨fun _ _ h => h, by simp,
    sync_idempotent idDigest (fun _ _ h => h) 1 7 "f"
      [TextChunk.mk "c" ""] (SyncState.mk [] []) (by simp)⟩
